import Mathlib

/-!
Verification development for the pbrt-v4 digest sources: the tagged-pointer
dispatch substrate (util/taggedptr.h), the interaction records
(interaction.h), the integrator base and the random-walk integrator
(cpu/integrators.h).  Machine integers are modelled as `Nat` with explicit masks;
`Float` is modelled by exact rationals, with the square root used by
`Normalize` passed explicitly as a function argument so that statements stay
executable.
-/

namespace Pbrt

/-! ## Tagged pointer (src/pbrt/util/taggedptr.h)

The C++ `TaggedPointer<Ts...>` packs a 57-bit address and a 7-bit type tag
into one 64-bit word.  The enumerated pack is modelled by its size `n`; a
pointer to the k-th enumerated type is modelled by the pair of `k : Fin n`
and the address value.  All bit manipulation is transcribed literally. -/

/-- Bit position where the tag starts: `static constexpr int tagShift = 57`. -/
def tagShift : Nat := 57

/-- Number of tag bits: `static constexpr int tagBits = 64 - tagShift`. -/
def tagBits : Nat := 64 - tagShift

/-- The tag mask: `((1ull << tagBits) - 1) << tagShift`. -/
def tagMask : Nat := ((1 <<< tagBits) - 1) <<< tagShift

/-- The pointer mask `~tagMask`; two's-complement negation on `uint64_t` is
subtraction from `2^64 - 1`. -/
def ptrMask : Nat := (2 ^ 64 - 1) - tagMask

/-- Model of `TaggedPointer<T1..Tn>`: the single member `uint64_t bits = 0`.
The type-level pack is abstracted by its size `n`. -/
structure TaggedPointer (n : Nat) where
  bits : Nat
deriving DecidableEq

/-- The default constructor `TaggedPointer() = default`: `bits` keeps its
member initializer `0`. -/
def TaggedPointer.nullHandle (n : Nat) : TaggedPointer n := ⟨0⟩

/-- The constructor `TaggedPointer(std::nullptr_t)`: empty body, `bits`
keeps its member initializer `0`. -/
def TaggedPointer.ofNullptr (n : Nat) : TaggedPointer n := ⟨0⟩

/-- The copy constructor: `bits = t.bits`. -/
def TaggedPointer.copy {n : Nat} (t : TaggedPointer n) : TaggedPointer n := ⟨t.bits⟩

/-- `TypeIndex<T>()` for the k-th enumerated type: `1 + IndexOf<T, Types>`.
Index `0` is reserved for `nullptr_t`. -/
def TaggedPointer.TypeIndex {n : Nat} (k : Fin n) : Nat := 1 + k.val

/-- The pointer constructor: `bits = iptr | ((uint64_t)type << tagShift)`
where `type = TypeIndex<T>()`.  The `DCHECK_EQ(iptr & ptrMask, iptr)`
precondition appears as the hypothesis `iptr < 2 ^ 57` in the theorems. -/
def TaggedPointer.ofPtr {n : Nat} (k : Fin n) (iptr : Nat) : TaggedPointer n :=
  ⟨iptr ||| (TaggedPointer.TypeIndex k <<< tagShift)⟩

/-- `Tag()`: `(bits & tagMask) >> tagShift`. -/
def TaggedPointer.Tag {n : Nat} (t : TaggedPointer n) : Nat :=
  (t.bits &&& tagMask) >>> tagShift

/-- `Is<T>()`: `Tag() == TypeIndex<T>()`. -/
def TaggedPointer.Is {n : Nat} (t : TaggedPointer n) (k : Fin n) : Bool :=
  t.Tag == TaggedPointer.TypeIndex k

/-- `MaxTag()`: `sizeof...(Ts)`. -/
def TaggedPointer.MaxTag (n : Nat) : Nat := n

/-- `NumTags()`: `MaxTag() + 1`. -/
def TaggedPointer.NumTags (n : Nat) : Nat := TaggedPointer.MaxTag n + 1

/-- `ptr()`: `bits & ptrMask`. -/
def TaggedPointer.ptr {n : Nat} (t : TaggedPointer n) : Nat := t.bits &&& ptrMask

/-- `Cast<T>()`: after the debug check `DCHECK(Is<T>())`, reinterprets
`ptr()` as a `T*`; the returned address is `ptr()`. -/
def TaggedPointer.Cast {n : Nat} (t : TaggedPointer n) (_ : Fin n) : Nat := t.ptr

/-- `CastOrNullptr<T>()`: `Is<T>() ? (T *)ptr() : nullptr`.  The null
result is modelled by `none`. -/
def TaggedPointer.CastOrNullptr {n : Nat} (t : TaggedPointer n) (k : Fin n) : Option Nat :=
  if t.Is k then some t.ptr else none

/-- `operator==`: `bits == tp.bits`. -/
instance {n : Nat} : BEq (TaggedPointer n) := ⟨fun a b => a.bits == b.bits⟩

/-- `explicit operator bool()`: `(bits & ptrMask) != 0`. -/
def TaggedPointer.nonNull {n : Nat} (t : TaggedPointer n) : Bool :=
  decide ((t.bits &&& ptrMask) ≠ 0)

/-- Model of the `detail::Dispatch` overload family: a bounded switch over
the branch index.  The fixed-arity overloads send every in-range index to
its branch and the `default:` label (as well as the variadic recursion that
subtracts 8) sends an out-of-range index to the last branch; this is the
clamping recursion below. -/
def dispatchGo {R : Type} (b : Nat → R) (bs : List (Nat → R)) (p : Nat) (index : Nat) : R :=
  match bs, index with
  | [], _ => b p
  | _ :: _, 0 => b p
  | b2 :: rest, i + 1 => dispatchGo b2 rest p i

/-- Model of the `detail::DispatchCPU` overload family; its switches are
identical to the `detail::Dispatch` ones. -/
def dispatchGoCPU {R : Type} (b : Nat → R) (bs : List (Nat → R)) (p : Nat) (index : Nat) : R :=
  match bs, index with
  | [], _ => b p
  | _ :: _, 0 => b p
  | b2 :: rest, i + 1 => dispatchGoCPU b2 rest p i

/-- `Dispatch(F &&func)`: `detail::Dispatch<F, R, Ts...>(func, ptr(), Tag() - 1)`.
The visitor `func` is modelled as a function of the resolved type index and
the pointer value; instantiating the branch for the i-th type applies it at
index `i`.  (An empty pack does not instantiate in C++, so the value at
`n = 0` is immaterial.) -/
def TaggedPointer.Dispatch {n : Nat} {R : Type} (t : TaggedPointer n) (f : Nat → Nat → R) : R :=
  dispatchGo (fun p => f 0 p) ((List.range (n - 1)).map (fun i => fun p => f (1 + i) p))
    t.ptr (t.Tag - 1)

/-- `DispatchCPU(F &&func)`: `detail::DispatchCPU<F, R, Ts...>(func, ptr(), Tag() - 1)`. -/
def TaggedPointer.DispatchCPU {n : Nat} {R : Type} (t : TaggedPointer n) (f : Nat → Nat → R) : R :=
  dispatchGoCPU (fun p => f 0 p) ((List.range (n - 1)).map (fun i => fun p => f (1 + i) p))
    t.ptr (t.Tag - 1)

/-! ## Geometry and spectrum scaffolding

`Float` is modelled by `ℚ`.  `Normalize` divides by `Length`, which applies
a square root; the square root function is passed explicitly (written
`sq`), and theorems assume only the algebraic facts about it that the
statement at hand needs, so everything stays executable. -/

/-- Model of `Vector3f`. -/
structure Vector3f where
  x : ℚ
  y : ℚ
  z : ℚ
deriving DecidableEq

/-- Model of `Normal3f`. -/
structure Normal3f where
  x : ℚ
  y : ℚ
  z : ℚ
deriving DecidableEq

/-- Model of `Point3f`. -/
structure Point3f where
  x : ℚ
  y : ℚ
  z : ℚ
deriving DecidableEq

/-- Model of `Point2f`. -/
structure Point2f where
  x : ℚ
  y : ℚ
deriving DecidableEq

/-- Model of `Point3fi`: a point whose coordinates carry interval error
bounds, represented by the two corner points. -/
structure Point3fi where
  lo : Point3f
  hi : Point3f
deriving DecidableEq

/-- Conversion of an exact `Point3f` into a degenerate `Point3fi`. -/
def Point3fi.ofPoint (p : Point3f) : Point3fi := ⟨p, p⟩

instance : Neg Vector3f := ⟨fun v => ⟨-v.x, -v.y, -v.z⟩⟩

/-- `Cross(dpdu, dpdv)` on `Vector3f`. -/
def Cross (a b : Vector3f) : Vector3f :=
  ⟨a.y * b.z - a.z * b.y, a.z * b.x - a.x * b.z, a.x * b.y - a.y * b.x⟩

/-- `LengthSquared(v)`. -/
def LengthSquared (v : Vector3f) : ℚ := v.x * v.x + v.y * v.y + v.z * v.z

/-- `Length(v) = std::sqrt(LengthSquared(v))`, with the square root `sq`
passed explicitly. -/
def Length (sq : ℚ → ℚ) (v : Vector3f) : ℚ := sq (LengthSquared v)

/-- Componentwise division of a vector by a scalar. -/
def Vector3f.divQ (v : Vector3f) (s : ℚ) : Vector3f := ⟨v.x / s, v.y / s, v.z / s⟩

/-- `Normalize(v) = v / Length(v)`. -/
def Normalize (sq : ℚ → ℚ) (v : Vector3f) : Vector3f := v.divQ (Length sq v)

/-- `Dot` between a vector and a normal. -/
def Dot (v : Vector3f) (n : Normal3f) : ℚ := v.x * n.x + v.y * n.y + v.z * n.z

/-- `AbsDot(v, n) = std::abs(Dot(v, n))`. -/
def AbsDot (v : Vector3f) (n : Normal3f) : ℚ := |Dot v n|

/-- The zero normal `Normal3f(0, 0, 0)`. -/
def Normal3f.zero : Normal3f := ⟨0, 0, 0⟩

/-- `n * -1`, used by the `flipNormal` adjustment. -/
def Normal3f.negate (n : Normal3f) : Normal3f := ⟨-n.x, -n.y, -n.z⟩

/-- `Normal3f(Vector3f v)` conversion. -/
def Normal3f.ofVector (v : Vector3f) : Normal3f := ⟨v.x, v.y, v.z⟩

/-- Model of `SampledSpectrum`: the fixed `NSpectrumSamples = 4` spectral
samples; arithmetic is per-component. -/
structure SampledSpectrum where
  s0 : ℚ
  s1 : ℚ
  s2 : ℚ
  s3 : ℚ
deriving DecidableEq

/-- Componentwise addition of spectra. -/
def SampledSpectrum.add (a b : SampledSpectrum) : SampledSpectrum :=
  ⟨a.s0 + b.s0, a.s1 + b.s1, a.s2 + b.s2, a.s3 + b.s3⟩

/-- Componentwise multiplication of spectra. -/
def SampledSpectrum.mul (a b : SampledSpectrum) : SampledSpectrum :=
  ⟨a.s0 * b.s0, a.s1 * b.s1, a.s2 * b.s2, a.s3 * b.s3⟩

/-- Spectrum times `Float` scalar. -/
def SampledSpectrum.mulQ (a : SampledSpectrum) (q : ℚ) : SampledSpectrum :=
  ⟨a.s0 * q, a.s1 * q, a.s2 * q, a.s3 * q⟩

/-- Spectrum divided by a `Float` scalar. -/
def SampledSpectrum.divQ (a : SampledSpectrum) (q : ℚ) : SampledSpectrum :=
  ⟨a.s0 / q, a.s1 / q, a.s2 / q, a.s3 / q⟩

instance : Add SampledSpectrum := ⟨SampledSpectrum.add⟩
instance : Mul SampledSpectrum := ⟨SampledSpectrum.mul⟩
instance : HMul SampledSpectrum ℚ SampledSpectrum := ⟨SampledSpectrum.mulQ⟩
instance : HDiv SampledSpectrum ℚ SampledSpectrum := ⟨SampledSpectrum.divQ⟩
instance : Zero SampledSpectrum := ⟨⟨0, 0, 0, 0⟩⟩

instance : AddCommMonoid SampledSpectrum where
  add_assoc a b c := by
    cases a; cases b; cases c
    show SampledSpectrum.add (SampledSpectrum.add _ _) _
      = SampledSpectrum.add _ (SampledSpectrum.add _ _)
    simp only [SampledSpectrum.add, SampledSpectrum.mk.injEq]
    refine ⟨?_, ?_, ?_, ?_⟩ <;> ring
  zero_add a := by
    cases a
    show SampledSpectrum.add ⟨0, 0, 0, 0⟩ _ = _
    simp only [SampledSpectrum.add, SampledSpectrum.mk.injEq]
    refine ⟨?_, ?_, ?_, ?_⟩ <;> ring
  add_zero a := by
    cases a
    show SampledSpectrum.add _ ⟨0, 0, 0, 0⟩ = _
    simp only [SampledSpectrum.add, SampledSpectrum.mk.injEq]
    refine ⟨?_, ?_, ?_, ?_⟩ <;> ring
  add_comm a b := by
    cases a; cases b
    show SampledSpectrum.add _ _ = SampledSpectrum.add _ _
    simp only [SampledSpectrum.add, SampledSpectrum.mk.injEq]
    refine ⟨?_, ?_, ?_, ?_⟩ <;> ring
  nsmul := nsmulRec

/-- Model of a handle to a `Medium`; `none` is the null handle. -/
def Medium : Type := Option Nat

instance : DecidableEq Medium := inferInstanceAs (DecidableEq (Option Nat))

/-- The null `Medium` handle. -/
def Medium.null : Medium := none

/-- Model of the pointee of a `MediumInterface *`. -/
structure MediumInterfaceData where
  inside : Medium
  outside : Medium

/-- Model of `Ray`: origin, direction, time and medium. -/
structure Ray where
  o : Point3f
  d : Vector3f
  time : ℚ := 0
  medium : Medium := Medium.null

/-! ## Interaction records (interaction.h) -/

/-- Model of the base `Interaction` record with its member initializers:
`time = 0`, `wo`, `n`, `uv` value-initialized to zero,
`mediumInterface = nullptr`, `medium = nullptr`. -/
structure Interaction where
  pi : Point3fi
  time : ℚ
  wo : Vector3f
  n : Normal3f
  uv : Point2f
  mediumInterface : Option MediumInterfaceData
  medium : Medium

/-- The constructor `Interaction(Point3fi pi, Normal3f n, Point2f uv,
Vector3f wo, Float time)`: note `wo(Normalize(wo))`. -/
def Interaction.ctorSurfaceForm (sq : ℚ → ℚ) (pi : Point3fi) (n : Normal3f) (uv : Point2f)
    (wo : Vector3f) (time : ℚ) : Interaction :=
  { pi := pi, time := time, wo := Normalize sq wo, n := n, uv := uv,
    mediumInterface := none, medium := Medium.null }

/-- The constructor `Interaction(Point3f p, Vector3f wo, Float time,
Medium medium)` used by the medium-interaction constructor: `wo(wo)` is
stored as given, `n` and `uv` stay zero. -/
def Interaction.ctorMediumForm (p : Point3f) (wo : Vector3f) (time : ℚ)
    (medium : Medium) : Interaction :=
  { pi := Point3fi.ofPoint p, time := time, wo := wo, n := Normal3f.zero,
    uv := ⟨0, 0⟩, mediumInterface := none, medium := medium }

/-- `IsSurfaceInteraction()`: `n != Normal3f(0, 0, 0)`. -/
def Interaction.IsSurfaceInteraction (i : Interaction) : Bool :=
  decide (i.n ≠ Normal3f.zero)

/-- `IsMediumInteraction()`: `!IsSurfaceInteraction()`. -/
def Interaction.IsMediumInteraction (i : Interaction) : Bool :=
  !i.IsSurfaceInteraction

/-- Model of a `PhaseFunction` handle; `none` is the null handle. -/
def PhaseFunction : Type := Option Nat

/-- Model of `MediumInteraction`: the base record plus the phase-function
handle. -/
structure MediumInteraction where
  toInteraction : Interaction
  phase : PhaseFunction

/-- The constructor `MediumInteraction(Point3f p, Vector3f wo, Float time,
Medium medium, PhaseFunction phase)`: delegates to
`Interaction(p, wo, time, medium)`. -/
def MediumInteraction.ctor (p : Point3f) (wo : Vector3f) (time : ℚ) (medium : Medium)
    (phase : PhaseFunction) : MediumInteraction :=
  { toInteraction := Interaction.ctorMediumForm p wo time medium, phase := phase }

/-- Model of the shading-geometry sub-record of `SurfaceInteraction`. -/
structure ShadingGeometry where
  n : Normal3f
  dpdu : Vector3f
  dpdv : Vector3f
  dndu : Normal3f
  dndv : Normal3f

/-- Model of `SurfaceInteraction`: the base record plus derivative fields,
the shading sub-record, and the intersection-time references (kept with
their member-initializer defaults where the constructor does not set them). -/
structure SurfaceInteraction where
  toInteraction : Interaction
  dpdu : Vector3f
  dpdv : Vector3f
  dndu : Normal3f
  dndv : Normal3f
  shading : ShadingGeometry
  faceIndex : Int := 0
  material : Option Nat := none
  areaLight : Option Nat := none
  dpdx : Vector3f := ⟨0, 0, 0⟩
  dpdy : Vector3f := ⟨0, 0, 0⟩
  dudx : ℚ := 0
  dvdx : ℚ := 0
  dudy : ℚ := 0
  dvdy : ℚ := 0

/-- The public constructor `SurfaceInteraction(Point3fi pi, Point2f uv,
Vector3f wo, Vector3f dpdu, Vector3f dpdv, Normal3f dndu, Normal3f dndv,
Float time, bool flipNormal)`: the base normal is
`Normal3f(Normalize(Cross(dpdu, dpdv)))`, the shading geometry is copied
from the true geometry, and if `flipNormal` both `n` and `shading.n` are
multiplied by `-1`. -/
def SurfaceInteraction.ctor (sq : ℚ → ℚ) (pi : Point3fi) (uv : Point2f) (wo : Vector3f)
    (dpdu dpdv : Vector3f) (dndu dndv : Normal3f) (time : ℚ)
    (flipNormal : Bool) : SurfaceInteraction :=
  let base := Interaction.ctorSurfaceForm sq pi
    (Normal3f.ofVector (Normalize sq (Cross dpdu dpdv))) uv wo time
  let n2 := if flipNormal then base.n.negate else base.n
  { toInteraction := { base with n := n2 },
    dpdu := dpdu, dpdv := dpdv, dndu := dndu, dndv := dndv,
    shading := { n := n2, dpdu := dpdu, dpdv := dpdv, dndu := dndu, dndv := dndv } }

/-! ## Lights and the Integrator base (base/light.h, cpu/integrators.h) -/

/-- `enum class LightType { DeltaPosition, DeltaDirection, Area, Infinite }`. -/
inductive LightType where
  | DeltaPosition
  | DeltaDirection
  | Area
  | Infinite
deriving DecidableEq

/-- Model of the pointee of a scene bound box `Bounds3f`.  Its numeric
contents live in the out-of-scope vector-math layer, so the box is kept
opaque; `raw = 0` is the value produced by the default constructor
`Bounds3f()` (the empty box). -/
structure Bounds3f where
  raw : Nat
deriving DecidableEq

/-- The default-constructed (empty) `Bounds3f()`. -/
def Bounds3f.emptyDefault : Bounds3f := ⟨0⟩

/-- Model of a `Light` handle.  The behaviour the integrator base observes
is `Type()`, `Preprocess(sceneBounds)` and `Le(ray, lambda)`; `Preprocess`
is modelled by logging its argument, so that counting and comparing
invocations is expressible. -/
structure Light where
  ltype : LightType
  preprocessCalls : List Bounds3f
  le : Ray → SampledSpectrum

/-- `light.Preprocess(sceneBounds)`: records one invocation. -/
def Light.Preprocess (l : Light) (b : Bounds3f) : Light :=
  { l with preprocessCalls := l.preprocessCalls ++ [b] }

/-- Model of the `Primitive` aggregate handle: `none` is the empty handle
(`operator bool` false), `some b` a non-empty aggregate whose `Bounds()`
returns `b`. -/
def Primitive : Type := Option Bounds3f

/-- The scene bounds chosen by the `Integrator` constructor:
`aggregate ? aggregate.Bounds() : Bounds3f()`. -/
def sceneBoundsOf (aggregate : Primitive) : Bounds3f :=
  match aggregate with
  | some b => b
  | none => Bounds3f.emptyDefault

/-- State of the `Integrator` base after construction. -/
structure Integrator where
  aggregate : Primitive
  lights : List Light
  infiniteLights : List Light

/-- The constructor loop over the stored light list: each light is
preprocessed with the scene bounds, and the (preprocessed) lights whose
`Type()` is `LightType::Infinite` are pushed onto `infiniteLights` in
order.  Returns the final `lights` and `infiniteLights` vectors. -/
def preprocessLoop (sceneBounds : Bounds3f) : List Light → List Light × List Light
  | [] => ([], [])
  | l :: rest =>
    let l2 := l.Preprocess sceneBounds
    let r := preprocessLoop sceneBounds rest
    (l2 :: r.1, if l2.ltype = LightType.Infinite then l2 :: r.2 else r.2)

/-- The protected constructor `Integrator(Primitive aggregate,
std::vector<Light> lights)`. -/
def Integrator.construct (aggregate : Primitive) (lights0 : List Light) : Integrator :=
  let sceneBounds := sceneBoundsOf aggregate
  let r := preprocessLoop sceneBounds lights0
  { aggregate := aggregate, lights := r.1, infiniteLights := r.2 }

/-! ## The random-walk integrator (cpu/integrators.h)

The scene query (`Intersect`, backed by the out-of-scope aggregate), the
material evaluation `GetBSDF`, the emission lookup `SurfaceInteraction::Le`,
the spawned continuation ray (`SpawnRay`, which calls the out-of-scope
`OffsetRayOrigin`), and the sampling utility `SampleUniformSphere` are
external collaborators; they appear as function-valued fields so that
`LiRandomWalk` itself is transcribed literally.  The mutable `Sampler` is
modelled by the stream of its future `Get2D()` results.  The C++ recursion
is well founded only on the path actually taken (depth counts up to
`maxDepth`); the Lean transcription adds an explicit `fuel` argument, and
the depth-bound theorem shows the value is independent of the fuel once the
fuel covers the remaining depth budget. -/

/-- Model of a `BSDF` produced by `GetBSDF` (the empty handle is `none` at
the call site): the evaluator `f(wo, wp)`. -/
structure BSDF where
  f : Vector3f → Vector3f → SampledSpectrum

/-- `sampler.Get2D()` on the stream model: the next sample of the stream
(the stream after the call is the tail). -/
def get2D (sampler : List Point2f) : Point2f :=
  match sampler with
  | [] => ⟨0, 0⟩
  | u :: _ => u

/-- State of a `RandomWalkIntegrator` plus its external collaborators. -/
structure RandomWalkIntegrator where
  maxDepth : Nat
  infiniteLights : List Light
  intersect : Ray → Option SurfaceInteraction
  leAt : SurfaceInteraction → Vector3f → SampledSpectrum
  getBSDF : SurfaceInteraction → Option BSDF
  spawnRay : SurfaceInteraction → Vector3f → Ray
  sampleUniformSphere : Point2f → Vector3f
  piConst : ℚ

/-- `LiRandomWalk(ray, lambda, sampler, scratchBuffer, depth)`, transcribed
from the body at cpu/integrators.h with an added fuel argument bounding the
number of remaining recursive calls. -/
def RandomWalkIntegrator.LiRandomWalk (I : RandomWalkIntegrator) (ray : Ray)
    (sampler : List Point2f) (depth : Nat) (fuel : Nat) : SampledSpectrum :=
  match I.intersect ray with
  | none =>
    I.infiniteLights.foldl (fun acc light => acc + light.le ray) 0
  | some isect =>
    let wo := -ray.d
    let le := I.leAt isect wo
    if depth = I.maxDepth then le
    else
      match I.getBSDF isect with
      | none => le
      | some bsdf =>
        let u := get2D sampler
        let wp := I.sampleUniformSphere u
        let fcos := bsdf.f wo wp * AbsDot wp isect.shading.n
        if fcos = 0 then le
        else
          match fuel with
          | 0 => le
          | fuel2 + 1 =>
            le + fcos * (I.LiRandomWalk (I.spawnRay isect wp) sampler.tail
              (depth + 1) fuel2) / (1 / (4 * I.piConst))

/-- `Li(...)`: `return LiRandomWalk(ray, lambda, sampler, scratchBuffer, 0)`.
The fuel `maxDepth` covers the whole depth budget (see the depth-bound
theorem). -/
def RandomWalkIntegrator.Li (I : RandomWalkIntegrator) (ray : Ray)
    (sampler : List Point2f) : SampledSpectrum :=
  I.LiRandomWalk ray sampler 0 I.maxDepth

/-! ## The SPPM integrator constructor (cpu/integrators.h) -/

/-- Model of the `Camera` handle as the SPPM constructor observes it:
`camera.GetFilm().PixelBounds().Area()`. -/
structure CameraModel where
  filmPixelBoundsArea : Int

/-- The fields of `SPPMIntegrator` set by its constructor. -/
structure SPPMIntegrator where
  camera : CameraModel
  initialSearchRadius : ℚ
  digitPermutationsSeed : Int
  maxDepth : Int
  photonsPerIteration : Int

/-- The constructor `SPPMIntegrator(camera, sampler, aggregate, lights,
photonsPerIteration, maxDepth, initialSearchRadius, seed, colorSpace)`:
`photonsPerIteration(photonsPerIteration > 0 ? photonsPerIteration
: camera.GetFilm().PixelBounds().Area())`. -/
def SPPMIntegrator.construct (camera : CameraModel) (photonsPerIteration : Int)
    (maxDepth : Int) (initialSearchRadius : ℚ) (seed : Int) : SPPMIntegrator :=
  { camera := camera,
    initialSearchRadius := initialSearchRadius,
    digitPermutationsSeed := seed,
    maxDepth := maxDepth,
    photonsPerIteration :=
      if photonsPerIteration > 0 then photonsPerIteration
      else camera.filmPixelBoundsArea }

/-! ## Concrete values used by the witnesses -/

/-- A concrete surface interaction record used by the witnesses. -/
def exampleISect : SurfaceInteraction :=
  { toInteraction :=
      { pi := ⟨⟨0, 0, 0⟩, ⟨0, 0, 0⟩⟩, time := 0, wo := ⟨0, 0, 1⟩, n := ⟨0, 0, 1⟩,
        uv := ⟨0, 0⟩, mediumInterface := none, medium := Medium.null },
    dpdu := ⟨1, 0, 0⟩, dpdv := ⟨0, 1, 0⟩, dndu := ⟨0, 0, 0⟩, dndv := ⟨0, 0, 0⟩,
    shading := { n := ⟨0, 0, 1⟩, dpdu := ⟨1, 0, 0⟩, dpdv := ⟨0, 1, 0⟩,
                 dndu := ⟨0, 0, 0⟩, dndv := ⟨0, 0, 0⟩ } }

/-- A concrete ray used by the witnesses. -/
def exampleRay : Ray := { o := ⟨0, 0, 0⟩, d := ⟨0, 0, -1⟩ }

/-- A concrete random-walk integrator whose scene query misses every ray:
two infinite lights, used by the miss-case witness. -/
def exampleRWMiss : RandomWalkIntegrator :=
  { maxDepth := 5,
    infiniteLights :=
      [ { ltype := LightType.Infinite, preprocessCalls := [], le := fun _ => ⟨1, 2, 0, 0⟩ },
        { ltype := LightType.Infinite, preprocessCalls := [], le := fun _ => ⟨3, 1, 0, 0⟩ } ],
    intersect := fun _ => none,
    leAt := fun _ _ => 0,
    getBSDF := fun _ => none,
    spawnRay := fun _ _ => { o := ⟨0, 0, 0⟩, d := ⟨0, 0, 1⟩ },
    sampleUniformSphere := fun _ => ⟨0, 0, 1⟩,
    piConst := 355 / 113 }

/-- A concrete random-walk integrator whose scene query hits
`exampleISect` on every ray and whose material evaluation yields no BSDF,
used by the hit-case witnesses. -/
def exampleRWHit : RandomWalkIntegrator :=
  { maxDepth := 3,
    infiniteLights := [],
    intersect := fun _ => some exampleISect,
    leAt := fun _ _ => ⟨5, 0, 0, 0⟩,
    getBSDF := fun _ => none,
    spawnRay := fun _ _ => { o := ⟨0, 0, 0⟩, d := ⟨0, 0, 1⟩ },
    sampleUniformSphere := fun _ => ⟨0, 0, 1⟩,
    piConst := 355 / 113 }

/-! ## Helper lemmas: the bit encoding -/

theorem tagMask_eq : tagMask = 127 * 2 ^ 57 := by
  simp [tagMask, tagBits, tagShift, Nat.shiftLeft_eq]

theorem ptrMask_eq : ptrMask = 2 ^ 57 - 1 := by
  simp only [ptrMask, tagMask_eq]
  norm_num

theorem ofPtr_bits {n : Nat} (k : Fin n) (p : Nat) (hp : p < 2 ^ 57) :
    (TaggedPointer.ofPtr k p).bits = 2 ^ 57 * (1 + k.val) + p := by
  show p ||| ((1 + k.val) <<< tagShift) = _
  rw [Nat.shiftLeft_eq, tagShift, Nat.lor_comm, Nat.mul_comm]
  exact (Nat.mul_add_lt_is_or hp _).symm

theorem and_tagMask_eq (t p : Nat) (ht : t < 128) (hp : p < 2 ^ 57) :
    (2 ^ 57 * t + p) &&& tagMask = 2 ^ 57 * t := by
  rw [tagMask_eq]
  apply Nat.eq_of_testBit_eq
  intro i
  rw [Nat.testBit_and, Nat.testBit_mul_pow_two_add _ hp,
    Nat.mul_comm 127 (2 ^ 57), Nat.testBit_mul_pow_two, Nat.testBit_mul_pow_two]
  by_cases h : i < 57
  · simp [h, Nat.not_le_of_lt h]
  · have h57 : 57 ≤ i := Nat.le_of_not_lt h
    simp only [h, if_false, ge_iff_le, h57, decide_True, Bool.true_and]
    by_cases h2 : i - 57 < 7
    · have : Nat.testBit 127 (i - 57) = true := by
        have : (127 : Nat) = 2 ^ 7 - 1 := by norm_num
        rw [this, Nat.testBit_two_pow_sub_one]
        simpa using h2
      simp [this]
    · have hge : 7 ≤ i - 57 := Nat.le_of_not_lt h2
      have htb : Nat.testBit t (i - 57) = false := by
        apply Nat.testBit_lt_two_pow
        calc t < 128 := ht
          _ = 2 ^ 7 := by norm_num
          _ ≤ 2 ^ (i - 57) := Nat.pow_le_pow_right (by norm_num) hge
      simp [htb]

theorem Tag_ofPtr {n : Nat} (hn : n ≤ 127) (k : Fin n) (p : Nat) (hp : p < 2 ^ 57) :
    (TaggedPointer.ofPtr k p).Tag = 1 + k.val := by
  have ht : 1 + k.val < 128 := by
    have := k.isLt
    omega
  rw [TaggedPointer.Tag, ofPtr_bits k p hp, and_tagMask_eq _ _ ht hp,
    Nat.shiftRight_eq_div_pow, tagShift]
  exact Nat.mul_div_cancel_left _ (Nat.pos_pow_of_pos 57 (by norm_num))

theorem ptr_ofPtr {n : Nat} (k : Fin n) (p : Nat) (hp : p < 2 ^ 57) :
    (TaggedPointer.ofPtr k p).ptr = p := by
  rw [TaggedPointer.ptr, ofPtr_bits k p hp, ptrMask_eq,
    Nat.and_pow_two_sub_one_eq_mod, Nat.mul_add_mod]
  exact Nat.mod_eq_of_lt hp

theorem dispatchGo_sel {R : Type} (f : Nat → Nat → R) :
    ∀ (m base j p : Nat), j < m + 1 →
      dispatchGo (fun q => f base q)
          ((List.range m).map (fun i => fun q => f (base + 1 + i) q)) p j
        = f (base + j) p := by
  intro m
  induction m with
  | zero =>
    intro base j p hj
    have hj0 : j = 0 := by omega
    subst hj0
    simp [dispatchGo]
  | succ m ih =>
    intro base j p hj
    rw [List.range_succ_eq_map, List.map_cons, List.map_map]
    have hfun : ((fun i => fun q => f (base + 1 + i) q) ∘ Nat.succ)
        = fun i => fun q => f (base + 1 + 1 + i) q := by
      funext i q
      have h2 : base + 1 + Nat.succ i = base + 1 + 1 + i := by omega
      simp [Function.comp, h2]
    rw [hfun]
    match j with
    | 0 => simp [dispatchGo]
    | j + 1 =>
      have step : dispatchGo (fun q => f base q)
          ((fun q => f (base + 1 + 0) q) ::
            (List.range m).map (fun i => fun q => f (base + 1 + 1 + i) q)) p (j + 1)
          = dispatchGo (fun q => f (base + 1 + 0) q)
            ((List.range m).map (fun i => fun q => f (base + 1 + 1 + i) q)) p j := rfl
      rw [step]
      have hb : ∀ q, f (base + 1 + 0) q = f (base + 1) q := by
        intro q
        norm_num
      have hmap : (fun i => fun q => f (base + 1 + 1 + i) q)
          = fun i => fun q => f ((base + 1) + 1 + i) q := rfl
      calc dispatchGo (fun q => f (base + 1 + 0) q)
            ((List.range m).map (fun i => fun q => f (base + 1 + 1 + i) q)) p j
          = dispatchGo (fun q => f (base + 1) q)
            ((List.range m).map (fun i => fun q => f ((base + 1) + 1 + i) q)) p j := by
            rw [funext hb, hmap]
        _ = f ((base + 1) + j) p := ih (base + 1) j p (by omega)
        _ = f (base + (j + 1)) p := by
            have h3 : base + 1 + j = base + (j + 1) := by omega
            rw [h3]

theorem dispatchGoCPU_sel {R : Type} (f : Nat → Nat → R) :
    ∀ (m base j p : Nat), j < m + 1 →
      dispatchGoCPU (fun q => f base q)
          ((List.range m).map (fun i => fun q => f (base + 1 + i) q)) p j
        = f (base + j) p := by
  intro m
  induction m with
  | zero =>
    intro base j p hj
    have hj0 : j = 0 := by omega
    subst hj0
    simp [dispatchGoCPU]
  | succ m ih =>
    intro base j p hj
    rw [List.range_succ_eq_map, List.map_cons, List.map_map]
    have hfun : ((fun i => fun q => f (base + 1 + i) q) ∘ Nat.succ)
        = fun i => fun q => f (base + 1 + 1 + i) q := by
      funext i q
      have h2 : base + 1 + Nat.succ i = base + 1 + 1 + i := by omega
      simp [Function.comp, h2]
    rw [hfun]
    match j with
    | 0 => simp [dispatchGoCPU]
    | j + 1 =>
      have step : dispatchGoCPU (fun q => f base q)
          ((fun q => f (base + 1 + 0) q) ::
            (List.range m).map (fun i => fun q => f (base + 1 + 1 + i) q)) p (j + 1)
          = dispatchGoCPU (fun q => f (base + 1 + 0) q)
            ((List.range m).map (fun i => fun q => f (base + 1 + 1 + i) q)) p j := rfl
      rw [step]
      have hb : ∀ q, f (base + 1 + 0) q = f (base + 1) q := by
        intro q
        norm_num
      calc dispatchGoCPU (fun q => f (base + 1 + 0) q)
            ((List.range m).map (fun i => fun q => f (base + 1 + 1 + i) q)) p j
          = dispatchGoCPU (fun q => f (base + 1) q)
            ((List.range m).map (fun i => fun q => f ((base + 1) + 1 + i) q)) p j := by
            rw [funext hb]
        _ = f ((base + 1) + j) p := ih (base + 1) j p (by omega)
        _ = f (base + (j + 1)) p := by
            have h3 : base + 1 + j = base + (j + 1) := by omega
            rw [h3]

theorem taggedPointer_beq_self {n : Nat} (a : TaggedPointer n) : (a == a) = true := by
  show (a.bits == a.bits) = true
  simp

theorem Dispatch_ofPtr {n : Nat} {R : Type} (hn : n ≤ 127) (k : Fin n) (p : Nat)
    (hp : p < 2 ^ 57) (f : Nat → Nat → R) :
    (TaggedPointer.ofPtr k p).Dispatch f = f k.val p := by
  rw [TaggedPointer.Dispatch, Tag_ofPtr hn k p hp, ptr_ofPtr k p hp]
  have hidx : 1 + k.val - 1 = k.val := by omega
  rw [hidx]
  have hk : k.val < (n - 1) + 1 := by
    have := k.isLt
    omega
  have := dispatchGo_sel f (n - 1) 0 k.val p hk
  simpa using this

theorem DispatchCPU_ofPtr {n : Nat} {R : Type} (hn : n ≤ 127) (k : Fin n) (p : Nat)
    (hp : p < 2 ^ 57) (f : Nat → Nat → R) :
    (TaggedPointer.ofPtr k p).DispatchCPU f = f k.val p := by
  rw [TaggedPointer.DispatchCPU, Tag_ofPtr hn k p hp, ptr_ofPtr k p hp]
  have hidx : 1 + k.val - 1 = k.val := by omega
  rw [hidx]
  have hk : k.val < (n - 1) + 1 := by
    have := k.isLt
    omega
  have := dispatchGoCPU_sel f (n - 1) 0 k.val p hk
  simpa using this

/-! ## Helper lemmas: the Integrator constructor -/

theorem preprocessLoop_fst (b : Bounds3f) :
    ∀ ls : List Light, (preprocessLoop b ls).1 = ls.map (fun l => l.Preprocess b) := by
  intro ls
  induction ls with
  | nil => rfl
  | cons l rest ih => simp [preprocessLoop, ih]

theorem preprocessLoop_snd (b : Bounds3f) :
    ∀ ls : List Light,
      (preprocessLoop b ls).2
        = (ls.map (fun l => l.Preprocess b)).filter
            (fun l => decide (l.ltype = LightType.Infinite)) := by
  intro ls
  induction ls with
  | nil => rfl
  | cons l rest ih =>
    by_cases hl : (l.Preprocess b).ltype = LightType.Infinite
    · simp [preprocessLoop, ih, List.filter, hl]
    · simp [preprocessLoop, ih, List.filter, hl]

/-! ## Helper lemmas: exact-arithmetic geometry -/

theorem lengthSquared_divQ (v : Vector3f) (s : ℚ) :
    LengthSquared (v.divQ s) = LengthSquared v / (s * s) := by
  cases v
  simp only [LengthSquared, Vector3f.divQ]
  by_cases hs : s = 0
  · simp [hs]
  · field_simp

theorem lengthSquared_eq_zero_iff (v : Vector3f) :
    LengthSquared v = 0 ↔ v = ⟨0, 0, 0⟩ := by
  cases v with
  | mk x y z =>
    constructor
    · intro h
      simp only [LengthSquared] at h
      have hx : x = 0 := by
        nlinarith [mul_self_nonneg x, mul_self_nonneg y, mul_self_nonneg z]
      have hy : y = 0 := by
        nlinarith [mul_self_nonneg x, mul_self_nonneg y, mul_self_nonneg z]
      have hz : z = 0 := by
        nlinarith [mul_self_nonneg x, mul_self_nonneg y, mul_self_nonneg z]
      simp [hx, hy, hz]
    · intro h
      rw [h]
      norm_num [LengthSquared]
/-- If the square root used for a vector with nonzero squared length
squares back to that squared length, then the normalized vector has
squared length one. -/
theorem lengthSquared_normalize (sq : ℚ → ℚ) (v : Vector3f)
    (hv : v ≠ ⟨0, 0, 0⟩)
    (hs : sq (LengthSquared v) * sq (LengthSquared v) = LengthSquared v) :
    LengthSquared (Normalize sq v) = 1 := by
  have hne : LengthSquared v ≠ 0 := by
    intro h
    exact hv ((lengthSquared_eq_zero_iff v).mp h)
  rw [Normalize, Length, lengthSquared_divQ, hs]
  exact div_self hne

theorem normalize_ne_zero (sq : ℚ → ℚ) (v : Vector3f)
    (hv : v ≠ ⟨0, 0, 0⟩)
    (hs : sq (LengthSquared v) * sq (LengthSquared v) = LengthSquared v) :
    Normalize sq v ≠ ⟨0, 0, 0⟩ := by
  intro h0
  have h1 := lengthSquared_normalize sq v hv hs
  rw [h0] at h1
  simp [LengthSquared] at h1

/-! ## Helper lemmas: the random walk -/

theorem foldl_add_eq_sum (r : Ray) :
    ∀ (ls : List Light) (acc : SampledSpectrum),
      ls.foldl (fun a light => a + light.le r) acc
        = acc + (ls.map (fun light => light.le r)).sum := by
  intro ls
  induction ls with
  | nil =>
    intro acc
    simp
  | cons l rest ih =>
    intro acc
    simp only [List.foldl_cons, List.map_cons, List.sum_cons]
    rw [ih]
    rw [add_assoc]

/-- One-step unfolding of `LiRandomWalk` on a miss. -/
theorem liRW_miss (I : RandomWalkIntegrator) (ray : Ray) (sampler : List Point2f)
    (depth fuel : Nat) (h : I.intersect ray = none) :
    I.LiRandomWalk ray sampler depth fuel
      = I.infiniteLights.foldl (fun acc light => acc + light.le ray) 0 := by
  rw [RandomWalkIntegrator.LiRandomWalk, h]

/-- One-step unfolding of `LiRandomWalk` on a hit, with the local `let`
bindings expanded. -/
theorem liRW_hit (I : RandomWalkIntegrator) (ray : Ray) (sampler : List Point2f)
    (depth fuel : Nat) (isect : SurfaceInteraction) (h : I.intersect ray = some isect) :
    I.LiRandomWalk ray sampler depth fuel
      = if depth = I.maxDepth then I.leAt isect (-ray.d)
        else
          match I.getBSDF isect with
          | none => I.leAt isect (-ray.d)
          | some bsdf =>
            if bsdf.f (-ray.d) (I.sampleUniformSphere (get2D sampler))
                * AbsDot (I.sampleUniformSphere (get2D sampler)) isect.shading.n = 0
            then I.leAt isect (-ray.d)
            else
              match fuel with
              | 0 => I.leAt isect (-ray.d)
              | fuel2 + 1 =>
                I.leAt isect (-ray.d)
                  + (bsdf.f (-ray.d) (I.sampleUniformSphere (get2D sampler))
                      * AbsDot (I.sampleUniformSphere (get2D sampler)) isect.shading.n)
                    * (I.LiRandomWalk (I.spawnRay isect (I.sampleUniformSphere (get2D sampler)))
                        sampler.tail (depth + 1) fuel2)
                    / (1 / (4 * I.piConst)) := by
  rw [RandomWalkIntegrator.LiRandomWalk, h]

/-- Fuel independence of `LiRandomWalk`: once the fuel covers the remaining
depth budget `maxDepth - depth` (and the depth has not overshot the
budget), the value no longer depends on the fuel, so the C++ recursion
(whose every recursive call increases `depth` by exactly one and is guarded
by `depth == maxDepth`) terminates within `maxDepth - depth` further
levels. -/
theorem liRandomWalk_fuel_indep (I : RandomWalkIntegrator) :
    ∀ (fuel1 fuel2 depth : Nat) (ray : Ray) (sampler : List Point2f),
      depth ≤ I.maxDepth → I.maxDepth ≤ depth + fuel1 → I.maxDepth ≤ depth + fuel2 →
      I.LiRandomWalk ray sampler depth fuel1 = I.LiRandomWalk ray sampler depth fuel2 := by
  intro fuel1
  induction fuel1 with
  | zero =>
    intro fuel2 depth ray sampler hd h1 _
    have hdm : depth = I.maxDepth := by omega
    cases hI : I.intersect ray with
    | none => rw [liRW_miss I ray sampler depth 0 hI, liRW_miss I ray sampler depth fuel2 hI]
    | some isect =>
      rw [liRW_hit I ray sampler depth 0 isect hI, liRW_hit I ray sampler depth fuel2 isect hI,
        if_pos hdm, if_pos hdm]
  | succ fuel1 ih =>
    intro fuel2 depth ray sampler hd h1 h2
    cases hI : I.intersect ray with
    | none =>
      rw [liRW_miss I ray sampler depth (fuel1 + 1) hI, liRW_miss I ray sampler depth fuel2 hI]
    | some isect =>
      rw [liRW_hit I ray sampler depth (fuel1 + 1) isect hI,
        liRW_hit I ray sampler depth fuel2 isect hI]
      by_cases hdm : depth = I.maxDepth
      · rw [if_pos hdm, if_pos hdm]
      · rw [if_neg hdm, if_neg hdm]
        cases hB : I.getBSDF isect with
        | none => rfl
        | some bsdf =>
          by_cases hf : bsdf.f (-ray.d) (I.sampleUniformSphere (get2D sampler))
              * AbsDot (I.sampleUniformSphere (get2D sampler)) isect.shading.n = 0
          · show (if _ = (0 : SampledSpectrum) then _ else _)
              = (if _ = (0 : SampledSpectrum) then _ else _)
            rw [if_pos hf, if_pos hf]
          · obtain ⟨f2, rfl⟩ : ∃ f2, fuel2 = f2 + 1 := ⟨fuel2 - 1, by omega⟩
            show (if _ = (0 : SampledSpectrum) then _ else _)
              = (if _ = (0 : SampledSpectrum) then _ else _)
            rw [if_neg hf, if_neg hf]
            have hrec := ih f2 (depth + 1)
              (I.spawnRay isect (I.sampleUniformSphere (get2D sampler)))
              sampler.tail (by omega) (by omega) (by omega)
            exact congrArg
              (fun s => I.leAt isect (-ray.d)
                + (bsdf.f (-ray.d) (I.sampleUniformSphere (get2D sampler))
                    * AbsDot (I.sampleUniformSphere (get2D sampler)) isect.shading.n)
                  * s / (1 / (4 * I.piConst)))
              hrec

/-! ## Further helper lemmas for the claims -/

theorem forall2_map_self {A B : Type} (f : A → B) (P : B → A → Prop)
    (h : ∀ a, P (f a) a) : ∀ ls : List A, List.Forall₂ P (ls.map f) ls := by
  intro ls
  induction ls with
  | nil => simp
  | cons a rest ih =>
    simp only [List.map_cons]
    exact List.Forall₂.cons (h a) ih

theorem ofVector_ne_zero (v : Vector3f) (h : v ≠ ⟨0, 0, 0⟩) :
    Normal3f.ofVector v ≠ Normal3f.zero := by
  intro he
  apply h
  cases v
  simp only [Normal3f.ofVector, Normal3f.zero, Normal3f.mk.injEq] at he
  simp [Vector3f.mk.injEq, he]

theorem negate_ne_zero (nrm : Normal3f) (h : nrm ≠ Normal3f.zero) :
    nrm.negate ≠ Normal3f.zero := by
  intro he
  apply h
  cases nrm
  simp only [Normal3f.negate, Normal3f.zero, Normal3f.mk.injEq, neg_eq_zero] at he
  simp [Normal3f.zero, Normal3f.mk.injEq, he]

/-! ## Claim theorems -/

/-- C1: for every type in the enumerated pack and every pointer whose
address fits in the low 57 bits, the constructed handle satisfies its own
`Is` test and fails every other one, `Cast` recovers exactly the pointer,
`Dispatch` and `DispatchCPU` invoke the visitor on the branch and pointer
for that type, and `operator==` holds iff the full 64-bit encodings are
equal, hence is reflexive, symmetric and transitive.  The hypothesis
`n ≤ 127` records that the pack must fit the 7-bit tag field. -/
theorem taggedPointer_handle_contract
    (n : Nat) (hn : n ≤ 127) (k j : Fin n) (hj : j ≠ k)
    (p : Nat) (hp : p < 2 ^ 57)
    (R : Type) (f : Nat → Nat → R)
    (a b c : TaggedPointer n) (hab : (a == b) = true) (hbc : (b == c) = true) :
    (TaggedPointer.ofPtr k p).Is k = true
    ∧ (TaggedPointer.ofPtr k p).Is j = false
    ∧ (TaggedPointer.ofPtr k p).Cast k = p
    ∧ (TaggedPointer.ofPtr k p).Dispatch f = f k.val p
    ∧ (TaggedPointer.ofPtr k p).DispatchCPU f = f k.val p
    ∧ ((a == b) = true ↔ a.bits = b.bits)
    ∧ ((a == a) = true)
    ∧ ((a == b) = (b == a))
    ∧ ((a == c) = true) := by
  have hbits : ∀ x y : TaggedPointer n, (x == y) = (x.bits == y.bits) := fun _ _ => rfl
  refine ⟨?_, ?_, ?_, ?_, ?_, ?_, ?_, ?_, ?_⟩
  · simp [TaggedPointer.Is, Tag_ofPtr hn k p hp, TaggedPointer.TypeIndex]
  · have hv : j.val ≠ k.val := fun h => hj (Fin.val_injective h)
    simp only [TaggedPointer.Is, Tag_ofPtr hn k p hp, TaggedPointer.TypeIndex]
    simp only [beq_eq_false_iff_ne, ne_eq]
    omega
  · rw [TaggedPointer.Cast, ptr_ofPtr k p hp]
  · exact Dispatch_ofPtr hn k p hp f
  · exact DispatchCPU_ofPtr hn k p hp f
  · rw [hbits]
    exact beq_iff_eq
  · rw [hbits]
    exact beq_self_eq_true _
  · rw [hbits, hbits]
    by_cases h : a.bits = b.bits
    · rw [h]
    · have h2 : b.bits ≠ a.bits := fun e => h e.symm
      simp [h, h2]
  · rw [hbits]
    rw [hbits] at hab hbc
    have e1 : a.bits = b.bits := by simpa using hab
    have e2 : b.bits = c.bits := by simpa using hbc
    simp [e1, e2]

/-- Witness for C1 at the concrete pack size 3, type index 1, address 1024. -/
theorem taggedPointer_handle_contract_witness :
    (TaggedPointer.ofPtr (n := 3) ⟨1, by omega⟩ 1024).Is ⟨1, by omega⟩ = true
    ∧ (TaggedPointer.ofPtr (n := 3) ⟨1, by omega⟩ 1024).Is ⟨2, by omega⟩ = false
    ∧ (TaggedPointer.ofPtr (n := 3) ⟨1, by omega⟩ 1024).Cast ⟨1, by omega⟩ = 1024
    ∧ (TaggedPointer.ofPtr (n := 3) ⟨1, by omega⟩ 1024).Dispatch (fun i q => 100 * i + q)
        = 100 * (⟨1, by omega⟩ : Fin 3).val + 1024
    ∧ (TaggedPointer.ofPtr (n := 3) ⟨1, by omega⟩ 1024).DispatchCPU (fun i q => 100 * i + q)
        = 100 * (⟨1, by omega⟩ : Fin 3).val + 1024
    ∧ ((TaggedPointer.ofPtr (n := 3) ⟨1, by omega⟩ 1024
          == TaggedPointer.ofPtr (n := 3) ⟨1, by omega⟩ 1024) = true
        ↔ (TaggedPointer.ofPtr (n := 3) ⟨1, by omega⟩ 1024).bits
          = (TaggedPointer.ofPtr (n := 3) ⟨1, by omega⟩ 1024).bits)
    ∧ ((TaggedPointer.ofPtr (n := 3) ⟨1, by omega⟩ 1024
          == TaggedPointer.ofPtr (n := 3) ⟨1, by omega⟩ 1024) = true)
    ∧ ((TaggedPointer.ofPtr (n := 3) ⟨1, by omega⟩ 1024
          == TaggedPointer.ofPtr (n := 3) ⟨1, by omega⟩ 1024)
        = (TaggedPointer.ofPtr (n := 3) ⟨1, by omega⟩ 1024
          == TaggedPointer.ofPtr (n := 3) ⟨1, by omega⟩ 1024))
    ∧ ((TaggedPointer.ofPtr (n := 3) ⟨1, by omega⟩ 1024
          == TaggedPointer.ofPtr (n := 3) ⟨1, by omega⟩ 1024) = true) :=
  taggedPointer_handle_contract 3 (by norm_num) ⟨1, by omega⟩ ⟨2, by omega⟩ (by decide)
    1024 (by norm_num) Nat (fun i q => 100 * i + q)
    (TaggedPointer.ofPtr ⟨1, by omega⟩ 1024) (TaggedPointer.ofPtr ⟨1, by omega⟩ 1024)
    (TaggedPointer.ofPtr ⟨1, by omega⟩ 1024)
    (taggedPointer_beq_self _) (taggedPointer_beq_self _)

/-- C2: the tag of a handle produced by any public constructor lies in
`[0, n]` with `n = MaxTag()` the pack size: the default- and
nullptr-constructed handles have tag 0, copying preserves the tag, and the
handle built from a pointer to the k-th enumerated type has tag `k + 1`. -/
theorem taggedPointer_tag_range
    (n : Nat) (hn : n ≤ 127) (k : Fin n) (p : Nat) (hp : p < 2 ^ 57)
    (t : TaggedPointer n) :
    (TaggedPointer.nullHandle n).Tag = 0
    ∧ (TaggedPointer.ofNullptr n).Tag = 0
    ∧ (TaggedPointer.copy t).Tag = t.Tag
    ∧ (TaggedPointer.ofPtr k p).Tag = k.val + 1
    ∧ (TaggedPointer.ofPtr k p).Tag ≤ TaggedPointer.MaxTag n
    ∧ TaggedPointer.MaxTag n = n := by
  have h0 : ((0 : Nat) &&& tagMask) >>> tagShift = 0 := by
    simp [Nat.zero_and]
  refine ⟨h0, h0, rfl, ?_, ?_, rfl⟩
  · rw [Tag_ofPtr hn k p hp]
    omega
  · rw [Tag_ofPtr hn k p hp, TaggedPointer.MaxTag]
    have := k.isLt
    omega

/-- Witness for C2 at the concrete pack size 9 (the `Light` pack), type
index 4, address 4096. -/
theorem taggedPointer_tag_range_witness :
    (TaggedPointer.nullHandle 9).Tag = 0
    ∧ (TaggedPointer.ofNullptr 9).Tag = 0
    ∧ (TaggedPointer.copy (TaggedPointer.nullHandle 9)).Tag = (TaggedPointer.nullHandle 9).Tag
    ∧ (TaggedPointer.ofPtr (n := 9) ⟨4, by omega⟩ 4096).Tag = (⟨4, by omega⟩ : Fin 9).val + 1
    ∧ (TaggedPointer.ofPtr (n := 9) ⟨4, by omega⟩ 4096).Tag ≤ TaggedPointer.MaxTag 9
    ∧ TaggedPointer.MaxTag 9 = 9 :=
  taggedPointer_tag_range 9 (by norm_num) ⟨4, by omega⟩ 4096 (by norm_num)
    (TaggedPointer.nullHandle 9)

/-- C9: `CastOrNullptr` returns the stored pointer value on a matching
`Is` test and the null pointer on any other enumerated type or on the
empty handle; being a `const` observer in a pure model, it cannot change
the encoded bits, and no fatal check is involved. -/
theorem taggedPointer_castOrNullptr
    (n : Nat) (hn : n ≤ 127) (k j : Fin n) (hj : j ≠ k)
    (p : Nat) (hp : p < 2 ^ 57) :
    (TaggedPointer.ofPtr k p).CastOrNullptr k = some ((TaggedPointer.ofPtr k p).ptr)
    ∧ (TaggedPointer.ofPtr k p).CastOrNullptr k = some p
    ∧ (TaggedPointer.ofPtr k p).CastOrNullptr j = none
    ∧ (TaggedPointer.ofNullptr n).CastOrNullptr k = none := by
  have hIs : (TaggedPointer.ofPtr k p).Is k = true := by
    simp [TaggedPointer.Is, Tag_ofPtr hn k p hp, TaggedPointer.TypeIndex]
  have hIsNot : (TaggedPointer.ofPtr k p).Is j = false := by
    have hv : j.val ≠ k.val := fun h => hj (Fin.val_injective h)
    simp only [TaggedPointer.Is, Tag_ofPtr hn k p hp, TaggedPointer.TypeIndex]
    simp only [beq_eq_false_iff_ne, ne_eq]
    omega
  refine ⟨?_, ?_, ?_, ?_⟩
  · rw [TaggedPointer.CastOrNullptr, hIs]
    rfl
  · rw [TaggedPointer.CastOrNullptr, hIs, if_pos rfl, ptr_ofPtr k p hp]
  · rw [TaggedPointer.CastOrNullptr, hIsNot]
    rfl
  · have h0 : (TaggedPointer.ofNullptr n).Is k = false := by
      simp only [TaggedPointer.Is, TaggedPointer.ofNullptr, TaggedPointer.Tag,
        TaggedPointer.TypeIndex, Nat.zero_and, Nat.zero_shiftRight,
        beq_eq_false_iff_ne, ne_eq]
      omega
    rw [TaggedPointer.CastOrNullptr, h0]
    rfl

/-- Witness for C9 at the concrete pack size 4, type index 2, address 64. -/
theorem taggedPointer_castOrNullptr_witness :
    (TaggedPointer.ofPtr (n := 4) ⟨2, by omega⟩ 64).CastOrNullptr ⟨2, by omega⟩
        = some ((TaggedPointer.ofPtr (n := 4) ⟨2, by omega⟩ 64).ptr)
    ∧ (TaggedPointer.ofPtr (n := 4) ⟨2, by omega⟩ 64).CastOrNullptr ⟨2, by omega⟩ = some 64
    ∧ (TaggedPointer.ofPtr (n := 4) ⟨2, by omega⟩ 64).CastOrNullptr ⟨0, by omega⟩ = none
    ∧ (TaggedPointer.ofNullptr 4).CastOrNullptr ⟨2, by omega⟩ = none :=
  taggedPointer_castOrNullptr 4 (by norm_num) ⟨2, by omega⟩ ⟨0, by omega⟩ (by decide)
    64 (by norm_num)

/-- C3: after the `Integrator` constructor runs, `Preprocess` has been
invoked exactly once on every light with the scene bounds
(`aggregate.Bounds()` for a non-empty aggregate handle, the default empty
bounds otherwise), the `infiniteLights` member holds exactly the lights
whose `Type()` is `LightType::Infinite` in the original order, and the
`lights` member still holds the full original list. -/
theorem integrator_constructor_partition (aggregate : Primitive) (lights0 : List Light)
    (b : Bounds3f) :
    (Integrator.construct aggregate lights0).aggregate = aggregate
    ∧ (Integrator.construct aggregate lights0).lights
        = lights0.map (fun l => l.Preprocess (sceneBoundsOf aggregate))
    ∧ List.Forall₂
        (fun l2 l => l2.preprocessCalls = l.preprocessCalls ++ [sceneBoundsOf aggregate])
        (Integrator.construct aggregate lights0).lights lights0
    ∧ (Integrator.construct aggregate lights0).infiniteLights
        = (lights0.filter (fun l => decide (l.ltype = LightType.Infinite))).map
            (fun l => l.Preprocess (sceneBoundsOf aggregate))
    ∧ sceneBoundsOf (some b) = b
    ∧ sceneBoundsOf none = Bounds3f.emptyDefault := by
  refine ⟨rfl, preprocessLoop_fst _ lights0, ?_, ?_, rfl, rfl⟩
  · rw [show (Integrator.construct aggregate lights0).lights
        = (preprocessLoop (sceneBoundsOf aggregate) lights0).1 from rfl,
      preprocessLoop_fst]
    exact forall2_map_self (fun l => l.Preprocess (sceneBoundsOf aggregate))
      (fun l2 l => l2.preprocessCalls = l.preprocessCalls ++ [sceneBoundsOf aggregate])
      (fun l => rfl) lights0
  · rw [show (Integrator.construct aggregate lights0).infiniteLights
        = (preprocessLoop (sceneBoundsOf aggregate) lights0).2 from rfl,
      preprocessLoop_snd]
    induction lights0 with
    | nil => rfl
    | cons l rest ih =>
      by_cases hl : l.ltype = LightType.Infinite
      · simp only [List.map_cons, List.filter_cons]
        have hl2 : (l.Preprocess (sceneBoundsOf aggregate)).ltype = LightType.Infinite := hl
        simp [hl, hl2, ih]
      · simp only [List.map_cons, List.filter_cons]
        have hl2 : ¬(l.Preprocess (sceneBoundsOf aggregate)).ltype = LightType.Infinite := hl
        simp [hl, hl2, ih]

/-- C4: an `Interaction` is classified as a surface interaction iff its
geometric normal differs from zero and as a medium interaction otherwise;
the public `SurfaceInteraction` constructor (whose normal is the normalized
cross product of `dpdu` and `dpdv`, here assumed non-degenerate, with the
square root exact on its squared length) is classified as a surface
interaction, and the public `MediumInteraction` constructor is classified
as a medium interaction. -/
theorem interaction_sentinel_discrimination (i : Interaction) (sq : ℚ → ℚ)
    (pi : Point3fi) (uv : Point2f) (wo : Vector3f) (dpdu dpdv : Vector3f)
    (dndu dndv : Normal3f) (time : ℚ) (flipNormal : Bool)
    (hcross : Cross dpdu dpdv ≠ ⟨0, 0, 0⟩)
    (hs : sq (LengthSquared (Cross dpdu dpdv)) * sq (LengthSquared (Cross dpdu dpdv))
        = LengthSquared (Cross dpdu dpdv))
    (p : Point3f) (woM : Vector3f) (tM : ℚ) (medium : Medium) (phase : PhaseFunction) :
    (i.IsSurfaceInteraction = true ↔ i.n ≠ Normal3f.zero)
    ∧ i.IsMediumInteraction = !i.IsSurfaceInteraction
    ∧ (SurfaceInteraction.ctor sq pi uv wo dpdu dpdv dndu dndv time
        flipNormal).toInteraction.IsSurfaceInteraction = true
    ∧ (MediumInteraction.ctor p woM tM medium
        phase).toInteraction.IsMediumInteraction = true := by
  have hng : Normal3f.ofVector (Normalize sq (Cross dpdu dpdv)) ≠ Normal3f.zero :=
    ofVector_ne_zero _ (normalize_ne_zero sq _ hcross hs)
  refine ⟨?_, rfl, ?_, ?_⟩
  · simp [Interaction.IsSurfaceInteraction]
  · cases flipNormal with
    | false =>
      simp only [Interaction.IsSurfaceInteraction]
      exact decide_eq_true hng
    | true =>
      simp only [Interaction.IsSurfaceInteraction]
      exact decide_eq_true (negate_ne_zero _ hng)
  · simp [Interaction.IsMediumInteraction, Interaction.IsSurfaceInteraction,
      MediumInteraction.ctor, Interaction.ctorMediumForm]

/-- Witness for C4 at concrete inputs with an exact square root
(`dpdu = (1,0,0)`, `dpdv = (0,1,0)`, cross product `(0,0,1)` of unit
squared length). -/
theorem interaction_sentinel_discrimination_witness :
    (exampleISect.toInteraction.IsSurfaceInteraction = true
      ↔ exampleISect.toInteraction.n ≠ Normal3f.zero)
    ∧ exampleISect.toInteraction.IsMediumInteraction
        = !exampleISect.toInteraction.IsSurfaceInteraction
    ∧ (SurfaceInteraction.ctor (fun q => q) ⟨⟨0, 0, 0⟩, ⟨0, 0, 0⟩⟩ ⟨0, 0⟩ ⟨0, 0, 1⟩
        ⟨1, 0, 0⟩ ⟨0, 1, 0⟩ ⟨0, 0, 0⟩ ⟨0, 0, 0⟩ 0
        false).toInteraction.IsSurfaceInteraction = true
    ∧ (MediumInteraction.ctor ⟨0, 0, 0⟩ ⟨0, 0, 1⟩ 0 Medium.null
        none).toInteraction.IsMediumInteraction = true :=
  interaction_sentinel_discrimination exampleISect.toInteraction (fun q => q)
    ⟨⟨0, 0, 0⟩, ⟨0, 0, 0⟩⟩ ⟨0, 0⟩ ⟨0, 0, 1⟩ ⟨1, 0, 0⟩ ⟨0, 1, 0⟩ ⟨0, 0, 0⟩ ⟨0, 0, 0⟩ 0
    false (by norm_num [Cross]) (by norm_num [Cross, LengthSquared])
    ⟨0, 0, 0⟩ ⟨0, 0, 1⟩ 0 Medium.null none

/-- C8 counterexample: the constructor
`Interaction(Point3f p, Vector3f wo, Float time, Medium medium)` stores its
(non-zero) outgoing-direction argument `(2, 0, 0)` unmodified, so the
stored `wo` has squared length 4 and is not unit length, contradicting the
claim that every public constructor normalizes a non-zero `wo`. -/
theorem interaction_wo_counterexample :
    (⟨2, 0, 0⟩ : Vector3f) ≠ ⟨0, 0, 0⟩
    ∧ (Interaction.ctorMediumForm ⟨1, 2, 3⟩ ⟨2, 0, 0⟩ 0 Medium.null).wo = ⟨2, 0, 0⟩
    ∧ LengthSquared (Interaction.ctorMediumForm ⟨1, 2, 3⟩ ⟨2, 0, 0⟩ 0 Medium.null).wo
        ≠ 1 := by
  refine ⟨by norm_num, rfl, by norm_num [Interaction.ctorMediumForm, LengthSquared]⟩

/-- C8 amended: only the surface-form constructor
`Interaction(Point3fi, Normal3f, Point2f, Vector3f, Float)` stores
`Normalize(wo)` — unit length whenever `wo` is non-zero and the square root
is exact on its squared length — while the medium-form constructor
`Interaction(Point3f, Vector3f, Float, Medium)` stores its `wo` argument as
given. -/
theorem interaction_wo_normalization_amended (sq : ℚ → ℚ) (pi : Point3fi)
    (nrm : Normal3f) (uv : Point2f) (wo : Vector3f) (time : ℚ)
    (hwo : wo ≠ ⟨0, 0, 0⟩)
    (hs : sq (LengthSquared wo) * sq (LengthSquared wo) = LengthSquared wo)
    (p : Point3f) (wo2 : Vector3f) (t2 : ℚ) (medium : Medium) :
    LengthSquared (Interaction.ctorSurfaceForm sq pi nrm uv wo time).wo = 1
    ∧ (Interaction.ctorMediumForm p wo2 t2 medium).wo = wo2 := by
  refine ⟨?_, rfl⟩
  show LengthSquared (Normalize sq wo) = 1
  exact lengthSquared_normalize sq wo hwo hs

/-- Witness for the amended C8 at `wo = (1, 2, 2)` (squared length 9) with
the square root returning 3. -/
theorem interaction_wo_normalization_amended_witness :
    LengthSquared (Interaction.ctorSurfaceForm (fun _ => 3) ⟨⟨0, 0, 0⟩, ⟨0, 0, 0⟩⟩
        ⟨0, 0, 1⟩ ⟨0, 0⟩ ⟨1, 2, 2⟩ 0).wo = 1
    ∧ (Interaction.ctorMediumForm ⟨0, 0, 0⟩ ⟨7, 0, 0⟩ 0 Medium.null).wo = ⟨7, 0, 0⟩ :=
  interaction_wo_normalization_amended (fun _ => 3) ⟨⟨0, 0, 0⟩, ⟨0, 0, 0⟩⟩ ⟨0, 0, 1⟩
    ⟨0, 0⟩ ⟨1, 2, 2⟩ 0 (by norm_num) (by norm_num [LengthSquared])
    ⟨0, 0, 0⟩ ⟨7, 0, 0⟩ 0 Medium.null

/-- C5: when the scene intersection query returns no hit, `LiRandomWalk`
returns exactly the sum of `light.Le(ray, lambda)` over the
`infiniteLights` list — a plain sum with no multiple-importance weight —
and performs no recursion for that ray (the result does not depend on the
depth or on the remaining recursion budget). -/
theorem randomWalk_miss_infinite_sum (I : RandomWalkIntegrator) (ray : Ray)
    (sampler : List Point2f) (depth fuel depth2 fuel2 : Nat)
    (h : I.intersect ray = none) :
    I.LiRandomWalk ray sampler depth fuel
      = (I.infiniteLights.map (fun light => light.le ray)).sum
    ∧ I.LiRandomWalk ray sampler depth fuel
      = I.LiRandomWalk ray sampler depth2 fuel2 := by
  have he : ∀ d f, I.LiRandomWalk ray sampler d f
      = (I.infiniteLights.map (fun light => light.le ray)).sum := by
    intro d f
    rw [liRW_miss I ray sampler d f h, foldl_add_eq_sum ray I.infiniteLights 0, zero_add]
  exact ⟨he depth fuel, (he depth fuel).trans (he depth2 fuel2).symm⟩

/-- Witness for C5 on a two-light scene whose intersection query misses
every ray. -/
theorem randomWalk_miss_infinite_sum_witness :
    exampleRWMiss.LiRandomWalk exampleRay [] 0 5
      = ((exampleRWMiss.infiniteLights).map (fun light => light.le exampleRay)).sum
    ∧ exampleRWMiss.LiRandomWalk exampleRay [] 0 5
      = exampleRWMiss.LiRandomWalk exampleRay [] 2 7 :=
  randomWalk_miss_infinite_sum exampleRWMiss exampleRay [] 0 5 2 7 rfl

/-- C6: when a hit is found but `GetBSDF` yields an empty BSDF handle, or
the sampled direction evaluates to a zero `f * |cos|` product,
`LiRandomWalk` returns exactly the emitted radiance `Le` already
accumulated at that hit (the hypothesis covers both cases at once: every
BSDF the material evaluation could return has a zero sample product). -/
theorem randomWalk_early_termination (I : RandomWalkIntegrator) (ray : Ray)
    (sampler : List Point2f) (depth fuel : Nat) (isect : SurfaceInteraction)
    (hsi : I.intersect ray = some isect)
    (hb : ∀ bsdf, I.getBSDF isect = some bsdf →
      bsdf.f (-ray.d) (I.sampleUniformSphere (get2D sampler))
        * AbsDot (I.sampleUniformSphere (get2D sampler)) isect.shading.n = 0) :
    I.LiRandomWalk ray sampler depth fuel = I.leAt isect (-ray.d) := by
  rw [liRW_hit I ray sampler depth fuel isect hsi]
  by_cases hdm : depth = I.maxDepth
  · rw [if_pos hdm]
  · rw [if_neg hdm]
    cases hB : I.getBSDF isect with
    | none => rfl
    | some bsdf =>
      have hf := hb bsdf hB
      show (if _ = (0 : SampledSpectrum) then _ else _) = I.leAt isect (-ray.d)
      rw [if_pos hf]

/-- Witness for C6 on a scene whose hit yields no BSDF. -/
theorem randomWalk_early_termination_witness :
    exampleRWHit.LiRandomWalk exampleRay [] 0 3
      = exampleRWHit.leAt exampleISect (-exampleRay.d) :=
  randomWalk_early_termination exampleRWHit exampleRay [] 0 3 exampleISect rfl
    (fun _ h => Option.noConfusion h)

/-- C7: `Li` calls `LiRandomWalk` at depth 0; every recursive call
increases the depth by exactly 1 and recursion stops when the depth equals
`maxDepth`, so a recursion budget of `maxDepth - depth` further levels
suffices: the value is independent of any fuel at least that large, and at
`depth = maxDepth` the function returns the hit emission without
recursing. -/
theorem randomWalk_depth_bound (I : RandomWalkIntegrator) (ray : Ray)
    (sampler : List Point2f) (depth fuel1 fuel2 : Nat) (isect : SurfaceInteraction)
    (hd : depth ≤ I.maxDepth) (h1 : I.maxDepth ≤ depth + fuel1)
    (h2 : I.maxDepth ≤ depth + fuel2) (hsi : I.intersect ray = some isect) :
    I.LiRandomWalk ray sampler depth fuel1 = I.LiRandomWalk ray sampler depth fuel2
    ∧ I.Li ray sampler = I.LiRandomWalk ray sampler 0 I.maxDepth
    ∧ I.LiRandomWalk ray sampler I.maxDepth fuel1 = I.leAt isect (-ray.d) := by
  refine ⟨liRandomWalk_fuel_indep I fuel1 fuel2 depth ray sampler hd h1 h2, rfl, ?_⟩
  rw [liRW_hit I ray sampler I.maxDepth fuel1 isect hsi, if_pos rfl]

/-- Witness for C7 on the hit-everywhere scene with depth budget 3. -/
theorem randomWalk_depth_bound_witness :
    exampleRWHit.LiRandomWalk exampleRay [] 0 3
        = exampleRWHit.LiRandomWalk exampleRay [] 0 10
    ∧ exampleRWHit.Li exampleRay []
        = exampleRWHit.LiRandomWalk exampleRay [] 0 exampleRWHit.maxDepth
    ∧ exampleRWHit.LiRandomWalk exampleRay [] exampleRWHit.maxDepth 3
        = exampleRWHit.leAt exampleISect (-exampleRay.d) :=
  randomWalk_depth_bound exampleRWHit exampleRay [] 0 3 10 exampleISect
    (by decide) (by decide) (by decide) rfl

/-- C10: the `SPPMIntegrator` constructor stores the given
`photonsPerIteration` when it is positive and the area of the camera
film pixel bounds otherwise; the other constructor arguments are stored
unchanged. -/
theorem sppm_photonsPerIteration_default (camera : CameraModel) (ppi maxDepth : Int)
    (r : ℚ) (seed : Int) :
    (ppi ≤ 0 → (SPPMIntegrator.construct camera ppi maxDepth r seed).photonsPerIteration
        = camera.filmPixelBoundsArea)
    ∧ (0 < ppi → (SPPMIntegrator.construct camera ppi maxDepth r seed).photonsPerIteration
        = ppi)
    ∧ (SPPMIntegrator.construct camera ppi maxDepth r seed).camera = camera
    ∧ (SPPMIntegrator.construct camera ppi maxDepth r seed).maxDepth = maxDepth
    ∧ (SPPMIntegrator.construct camera ppi maxDepth r seed).initialSearchRadius = r
    ∧ (SPPMIntegrator.construct camera ppi maxDepth r seed).digitPermutationsSeed
        = seed := by
  refine ⟨?_, ?_, rfl, rfl, rfl, rfl⟩
  · intro hle
    show (if ppi > 0 then ppi else camera.filmPixelBoundsArea) = _
    rw [if_neg (by omega)]
  · intro hgt
    show (if ppi > 0 then ppi else camera.filmPixelBoundsArea) = _
    rw [if_pos hgt]

/-- Witness for C10 at a 640 by 480 pixel-bounds area, once with
`photonsPerIteration = -3` and once with `7`. -/
theorem sppm_photonsPerIteration_default_witness :
    (SPPMIntegrator.construct ⟨307200⟩ (-3) 5 1 0).photonsPerIteration = 307200
    ∧ (SPPMIntegrator.construct ⟨307200⟩ 7 5 1 0).photonsPerIteration = 7 :=
  ⟨(sppm_photonsPerIteration_default ⟨307200⟩ (-3) 5 1 0).1 (by norm_num),
   (sppm_photonsPerIteration_default ⟨307200⟩ 7 5 1 0).2.1 (by norm_num)⟩


end Pbrt
